import Mathlib

/-!
Verification development for the `pmd_clever_note` food-diary bot.

The definitions below are a shallow embedding of the Python sources
`src/pmd_clever_note/tools/food_diary.py`, `src/pmd_clever_note/handlers.py`
and `src/pmd_clever_note/storage.py`:

* `Rec` is the JSON record dict written to `food_diary/records.jsonl`
  (keys in insertion order: id, datetime_utc, record, hunger_before,
  hunger_after, drink, picture).
* `RecordCreationState` is the dataclass of the same name, and `StateMap`
  is the `_creation_states` dict keyed by user id.
* The `handle_*` functions mirror the corresponding methods of
  `_FoodDiaryTool`; each returns its reply text together with the updated
  conversation-state map (and record list where the method touches storage).
  Error reply strings are verbatim; success replies only carry the static
  leading text of the source message (the dynamic remainder is the
  timezone-dependent display formatting, an excluded presentation concern).
* The storage layer (`write_jsonl` / `read_jsonl` / `write_text`) is
  embedded at the character level including the `json.dumps` serialization
  with string escaping, so the replace-all round trip is proved about real
  file contents. `parseLine` models `json.loads` restricted to the object
  shape produced by `dumps`.
* Timezone conversion (`zoneinfo.ZoneInfo`) is an external collaborator;
  where a source function uses it, the embedding takes the local-to-UTC
  conversion function as an explicit `Option`-valued parameter (none means
  the user has no timezone preference, exactly the `None` case of the
  source).
-/

/-- Decimal digit character, code 48 + n (used by all the fixed-width
numeric formatting below). -/
def digitChar (n : Nat) : Char := Char.ofNat (48 + n)

/-- Two-digit zero-padded decimal rendering of `n < 100`, as `strftime`
produces for `%m`, `%d`, `%H`, `%M`, `%S`. -/
def pad2 (n : Nat) : List Char := [digitChar (n / 10), digitChar (n % 10)]

/-- Four-digit zero-padded decimal rendering of `n < 10000`, as `strftime`
produces for `%Y`. -/
def pad4 (n : Nat) : List Char :=
  [digitChar (n / 1000), digitChar (n / 100 % 10), digitChar (n / 10 % 10), digitChar (n % 10)]

/-- Civil UTC instant at second resolution: the part of a Python
`datetime` the diary code observes (microseconds are always zero in the
flows under study, and `strftime`/`isoformat` of the relevant calls never
print them). -/
structure DateTime where
  year : Nat
  month : Nat
  day : Nat
  hour : Nat
  minute : Nat
  second : Nat
deriving DecidableEq, Repr

/-- Field ranges under which the `strftime`-style rendering is faithful:
every real instant produced by `datetime.now` satisfies this. -/
def ValidDT (d : DateTime) : Prop :=
  d.year < 10000 ∧ d.month < 100 ∧ d.day < 100 ∧ d.hour < 100 ∧ d.minute < 100 ∧ d.second < 100

instance (d : DateTime) : Decidable (ValidDT d) := by
  unfold ValidDT
  infer_instance

/-- Gregorian leap-year test (`calendar.isleap` semantics, used by
`datetime` range validation). -/
def isLeap (y : Nat) : Bool :=
  (y % 4 == 0 && y % 100 != 0) || y % 400 == 0

/-- Number of days in a month, for `strptime` day-of-month validation. -/
def daysInMonth (y m : Nat) : Nat :=
  if m = 2 then (if isLeap y then 29 else 28)
  else if m = 4 ∨ m = 6 ∨ m = 9 ∨ m = 11 then 30
  else 31

/-- Embedding of `datetime.now(timezone.utc).strftime("%Y%m%d_%H%M%S")`,
the synthesized record id in `_save_complete_record`. -/
def fmtTimestamp (d : DateTime) : String :=
  ⟨pad4 d.year ++ pad2 d.month ++ pad2 d.day ++ '_' ::
    (pad2 d.hour ++ pad2 d.minute ++ pad2 d.second)⟩

/-- Embedding of `.isoformat()` on a timezone-aware UTC `datetime` with
zero microseconds: `YYYY-MM-DDTHH:MM:SS+00:00`. -/
def isoformatUTC (d : DateTime) : String :=
  ⟨pad4 d.year ++ '-' :: (pad2 d.month ++ '-' :: (pad2 d.day ++ 'T' ::
    (pad2 d.hour ++ ':' :: (pad2 d.minute ++ ':' ::
      (pad2 d.second ++ "+00:00".data)))))⟩

/-- Days since 1970-01-01 of a civil date (standard civil-from-days
arithmetic, used only to give `timedelta` subtraction an executable
meaning). -/
def daysFromCivil (y m d : Nat) : Int :=
  let yi : Int := (y : Int) - (if m ≤ 2 then 1 else 0)
  let era : Int := (if 0 ≤ yi then yi else yi - 399) / 400
  let yoe : Int := yi - era * 400
  let mp : Int := ((m : Int) + 9) % 12
  let doy : Int := (153 * mp + 2) / 5 + (d : Int) - 1
  let doe : Int := yoe * 365 + yoe / 4 - yoe / 100 + doy
  era * 146097 + doe - 719468

/-- Civil date from days since 1970-01-01 (inverse direction of
`daysFromCivil`). -/
def civilFromDays (z0 : Int) : Nat × Nat × Nat :=
  let z : Int := z0 + 719468
  let era : Int := (if 0 ≤ z then z else z - 146096) / 146097
  let doe : Int := z - era * 146097
  let yoe : Int := (doe - doe / 1460 + doe / 36524 - doe / 146096) / 365
  let y : Int := yoe + era * 400
  let doy : Int := doe - (365 * yoe + yoe / 4 - yoe / 100)
  let mp : Int := (5 * doy + 2) / 153
  let d : Int := doy - (153 * mp + 2) / 5 + 1
  let m : Int := if mp < 10 then mp + 3 else mp - 9
  (((if m ≤ 2 then y + 1 else y)).toNat, m.toNat, d.toNat)

/-- Minutes since the epoch of a civil instant (seconds ignored, matching
how `timedelta(minutes=...)` subtraction interacts with the fields the
diary stores). -/
def toEpochMinutes (dt : DateTime) : Int :=
  daysFromCivil dt.year dt.month dt.day * 1440 + (dt.hour : Int) * 60 + (dt.minute : Int)

/-- Civil instant from minutes since the epoch, reattaching a seconds
field. -/
def ofEpochMinutes (z : Int) (second : Nat) : DateTime :=
  let minutes : Int := z % 1440
  let days : Int := (z - minutes) / 1440
  let c := civilFromDays days
  { year := c.1, month := c.2.1, day := c.2.2,
    hour := (minutes / 60).toNat, minute := (minutes % 60).toNat, second := second }

/-- Embedding of `now - timedelta(minutes=k)` in `handle_time_selection`. -/
def subMinutes (dt : DateTime) (k : Nat) : DateTime :=
  ofEpochMinutes (toEpochMinutes dt - (k : Int)) dt.second

/-- Whitespace class stripped by Python `str.strip()` (the ASCII cases,
which cover every character the diary file format can produce around a
line). -/
def isPySpace (c : Char) : Bool :=
  c = ' ' || c = '\t' || c = '\n' || c = '\r' || c = '\x0b' || c = '\x0c'

/-- Embedding of Python `str.strip()` on a character list. -/
def pyStrip (l : List Char) : List Char :=
  ((l.dropWhile isPySpace).reverse.dropWhile isPySpace).reverse

/-- String-level wrapper of `pyStrip`. -/
def pyStripS (s : String) : String := ⟨pyStrip s.data⟩

/-- Numeric value of a decimal digit character, `none` for non-digits. -/
def digitVal (c : Char) : Option Nat :=
  if c.isDigit then some (c.toNat - 48) else none

/-- One-or-two-digit numeric field, as CPython `_strptime` accepts for
`%m`, `%d`, `%H`, `%M`. -/
def parse1or2 : List Char → Option (Nat × List Char)
  | [] => none
  | [c] => (digitVal c).map (fun a => (a, []))
  | c1 :: c2 :: rest =>
    match digitVal c1, digitVal c2 with
    | some a, some b => some (a * 10 + b, rest)
    | some a, none => some (a, c2 :: rest)
    | none, _ => none

/-- Embedding of `datetime.strptime(s, "%Y-%m-%d %H:%M")`: four-digit
year, then `-`, one-or-two-digit month, `-`, day, space, hour, `:`,
minute, end of input, with the range checks `strptime` and the `datetime`
constructor apply. -/
def parseCustomTime (s : String) : Option DateTime := do
  match s.data with
  | y1 :: y2 :: y3 :: y4 :: sep1 :: r1 => do
    if sep1 ≠ '-' then failure
    let a ← digitVal y1
    let b ← digitVal y2
    let c ← digitVal y3
    let d ← digitVal y4
    let y := ((a * 10 + b) * 10 + c) * 10 + d
    let (mo, r2) ← parse1or2 r1
    match r2 with
    | sep2 :: r3 => do
      if sep2 ≠ '-' then failure
      let (da, r4) ← parse1or2 r3
      match r4 with
      | sep3 :: r5 => do
        if sep3 ≠ ' ' then failure
        let (h, r6) ← parse1or2 r5
        match r6 with
        | sep4 :: r7 => do
          if sep4 ≠ ':' then failure
          let (mi, r8) ← parse1or2 r7
          if r8 ≠ [] then failure
          if 1 ≤ mo ∧ mo ≤ 12 ∧ 1 ≤ da ∧ da ≤ daysInMonth y mo ∧ h ≤ 23 ∧ mi ≤ 59 then
            pure { year := y, month := mo, day := da, hour := h, minute := mi, second := 0 }
          else failure
        | [] => failure
      | [] => failure
    | [] => failure
  | _ => failure

/-- Embedding of Python `int(s)` as used on hunger-level callback parts:
optional sign, at least one decimal digit, leading and trailing
whitespace ignored. -/
def parseNatAll (l : List Char) : Option Nat :=
  if l ≠ [] ∧ l.all (·.isDigit) then
    some (l.foldl (fun a c => a * 10 + (c.toNat - 48)) 0)
  else none

/-- Sign handling of Python `int(s)`. -/
def parseIntPy (s : String) : Option Int :=
  match pyStrip s.data with
  | '-' :: rest => (parseNatAll rest).map (fun n => -(n : Int))
  | '+' :: rest => (parseNatAll rest).map (fun n => (n : Int))
  | other => (parseNatAll other).map (fun n => (n : Int))

example : parseCustomTime "2024-01-15 14:30" =
    some { year := 2024, month := 1, day := 15, hour := 14, minute := 30, second := 0 } := by
  decide

example : isoformatUTC { year := 2024, month := 1, day := 15, hour := 14, minute := 30, second := 0 }
    = "2024-01-15T14:30:00+00:00" := by decide

example : fmtTimestamp { year := 2024, month := 1, day := 15, hour := 14, minute := 30, second := 5 }
    = "20240115_143005" := by decide

example : parseIntPy "10" = some 10 := by decide

/-- The JSON record dict written to `food_diary/records.jsonl`, in its key
insertion order from `_save_complete_record`. -/
structure Rec where
  id : String
  datetime_utc : Option String
  record : Option String
  hunger_before : Option Int
  hunger_after : Option Int
  drink : Option String
  picture : Option String
deriving DecidableEq, Repr, Inhabited

/-- The `RecordCreationState` dataclass of `food_diary.py`, with the same
field defaults. -/
structure RecordCreationState where
  user_id : Nat
  step : String
  datetime_utc : Option String := none
  record_text : Option String := none
  hunger_before : Option Int := none
  hunger_after : Option Int := none
  drink : Option String := none
  editing_record_id : Option String := none
deriving DecidableEq, Repr

/-- The `_creation_states` dict: user id to draft. -/
abbrev StateMap := List (Nat × RecordCreationState)

/-- Dict lookup `self._creation_states.get(user_id)`. -/
def getState (m : StateMap) (u : Nat) : Option RecordCreationState :=
  (m.find? (fun p => p.1 == u)).map (·.2)

/-- Dict assignment `self._creation_states[user_id] = st`. -/
def setState (m : StateMap) (u : Nat) (st : RecordCreationState) : StateMap :=
  if m.any (fun p => p.1 == u) then
    m.map (fun p => if p.1 == u then (u, st) else p)
  else m ++ [(u, st)]

/-- Dict deletion `del self._creation_states[user_id]` (also a no-op when
the key is absent, covering the guarded `if user_id in ...: del ...`
pattern of the source). -/
def delState (m : StateMap) (u : Nat) : StateMap :=
  m.filter (fun p => p.1 != u)

/-- The page slice of `_show_records`: `records[offset : min(offset+5,
len(records))]`, with the source's early empty-store branch. -/
def show_records_display (records : List Rec) (offset : Nat) : List Rec :=
  if records.isEmpty then []
  else (records.drop offset).take (min (offset + 5) records.length - offset)

/-- Record deletion of `_remove_record`: keep every record whose id
differs; the file is then cleared and rewritten with exactly this list
(the conditional rewrite for an empty result writes nothing, which equals
appending nothing to the cleared file). -/
def remove_record (records : List Rec) (recordId : String) : List Rec :=
  records.filter (fun r => r.id != recordId)

/-- Static text of `_show_hunger_scale` (fully determined by the
before/after flag). -/
def show_hunger_scale (hungerType : String) : String :=
  if hungerType = "before" then
    "🍽️ Hunger Level Before\n\nHow hungry were you before eating?\n\nSelect your hunger level:"
  else
    "😋 Hunger Level After\n\nHow hungry were you after eating?\n\nSelect your hunger level:"

/-- The `_show_custom_time_input` method: replaces the user's draft with a
fresh one waiting in step `custom_time`. -/
def show_custom_time_input (states : StateMap) (u : Nat) : String × StateMap :=
  ("🕐 Custom Time",
   setState states u { user_id := u, step := "custom_time", editing_record_id := none })

/-- The `handle_time_selection` method: every concrete choice replaces the
user's draft with a fresh step-`text` draft whose `editing_record_id` is
`None` (exactly as the source constructs it), storing
`selected_time.isoformat() + "Z"`. -/
def handle_time_selection (now : DateTime) (states : StateMap) (u : Nat)
    (timeOption : String) : String × StateMap :=
  let store (sel : DateTime) : String × StateMap :=
    ("📝 What did you eat?",
     setState states u
       { user_id := u, step := "text",
         datetime_utc := some (isoformatUTC sel ++ "Z"), editing_record_id := none })
  if timeOption = "now" then store now
  else if timeOption = "30m" then store (subMinutes now 30)
  else if timeOption = "1h" then store (subMinutes now 60)
  else if timeOption = "2h" then store (subMinutes now 120)
  else if timeOption = "3h" then store (subMinutes now 180)
  else if timeOption = "4h" then store (subMinutes now 240)
  else if timeOption = "custom" then show_custom_time_input states u
  else ("❌ Invalid time selection.", states)

/-- The `handle_custom_time_input` method. `userTz` is the user's
timezone preference: `none` mirrors the unset case (input taken as UTC),
`some toUTC` mirrors the `ZoneInfo` local-to-UTC conversion of the set
case (external collaborator passed as a function). -/
def handle_custom_time_input (userTz : Option (DateTime → DateTime))
    (states : StateMap) (u : Nat) (timeText : String) : String × StateMap :=
  match parseCustomTime (pyStripS timeText) with
  | none =>
    ("❌ Invalid time format. Please use YYYY-MM-DD HH:MM\n\nExample: 2024-01-15 14:30", states)
  | some sel =>
    let utc := match userTz with
      | some toUTC => toUTC sel
      | none => sel
    ("📝 What did you eat?",
     setState states u
       { user_id := u, step := "text",
         datetime_utc := some (isoformatUTC utc ++ "Z"), editing_record_id := none })

/-- The `handle_text_input` method of `_FoodDiaryTool`: empty text is
re-prompted, a `/`-prefixed text deletes the draft, otherwise the draft
(which must exist and have a non-falsy `datetime_utc`) advances to step
`drink` carrying the stripped text. -/
def handle_text_input (states : StateMap) (u : Nat) (text : String) : String × StateMap :=
  if pyStrip text.data = [] then
    ("❌ Please enter what you ate.", states)
  else if (pyStrip text.data).head? = some '/' then
    ("❌ Record creation cancelled. Command detected.", delState states u)
  else
    match getState states u with
    | none => ("❌ Error: No time selected. Please start over.", states)
    | some st =>
      if st.datetime_utc = none ∨ st.datetime_utc = some "" then
        ("❌ Error: No time selected. Please start over.", states)
      else
        ("🥤 What did you drink?\n\nType what you drank or skip:",
         setState states u
           { user_id := u, step := "drink", datetime_utc := st.datetime_utc,
             record_text := some (pyStripS text), hunger_before := none,
             hunger_after := none, drink := st.drink,
             editing_record_id := st.editing_record_id })

/-- The `handle_drink_input` method: advances the draft to step
`hunger_before` carrying the stripped drink text. -/
def handle_drink_input (states : StateMap) (u : Nat) (drinkText : String) : String × StateMap :=
  match getState states u with
  | none => ("❌ Error: No active record creation.", states)
  | some st =>
    (show_hunger_scale "before",
     setState states u
       { user_id := u, step := "hunger_before", datetime_utc := st.datetime_utc,
         record_text := st.record_text, hunger_before := none, hunger_after := none,
         drink := some (pyStripS drinkText), editing_record_id := st.editing_record_id })

/-- The in-place field update of the editing branch of
`_save_complete_record` (`records[record_index].update({...})`). -/
def updateRec (r : Rec) (st : RecordCreationState) : Rec :=
  { r with datetime_utc := st.datetime_utc, record := st.record_text,
           hunger_before := st.hunger_before, hunger_after := st.hunger_after,
           drink := st.drink }

/-- The new-record dict of `_save_complete_record`, with the id
synthesized from the save instant. -/
def mkNewRec (saveNow : DateTime) (st : RecordCreationState) : Rec :=
  { id := fmtTimestamp saveNow, datetime_utc := st.datetime_utc,
    record := st.record_text, hunger_before := st.hunger_before,
    hunger_after := st.hunger_after, drink := st.drink, picture := none }

/-- The `_save_complete_record` method: with `editing_record_id` set it
replaces the fields of the first record carrying that id and rewrites the
whole list (missing id: error, nothing written, draft kept); otherwise it
appends one new record with a timestamp-derived id. Either successful
path deletes the draft. -/
def save_complete_record (saveNow : DateTime) (states : StateMap)
    (records : List Rec) (u : Nat) : String × StateMap × List Rec :=
  match getState states u with
  | none => ("❌ Error: No active record creation.", states, records)
  | some st =>
    match st.editing_record_id with
    | some eid =>
      match records.findIdx? (fun r => r.id == eid) with
      | none => ("❌ Error: Record to edit not found.", states, records)
      | some i =>
        ("✅ Record Updated Successfully!", delState states u,
         records.set i (updateRec (records.getD i default) st))
    | none =>
      ("✅ Record Added Successfully!", delState states u,
       records ++ [mkNewRec saveNow st])

/-- The `handle_hunger_selection` method. The `before` branch constructs
the successor draft without a `drink` argument, exactly as the source
does, so the dataclass default `None` applies; the `after` branch carries
`state.drink` and immediately saves. -/
def handle_hunger_selection (saveNow : DateTime) (states : StateMap)
    (records : List Rec) (u : Nat) (hungerType level : String) :
    String × StateMap × List Rec :=
  match getState states u with
  | none => ("❌ Error: No active record creation.", states, records)
  | some st =>
    let hungerValue : Option (Option Int) :=
      if level = "skip" then some none else (parseIntPy level).map some
    match hungerValue with
    | none => ("❌ Invalid hunger level.", states, records)
    | some hv =>
      if hungerType = "before" then
        (show_hunger_scale "after",
         setState states u
           { user_id := u, step := "hunger_after", datetime_utc := st.datetime_utc,
             record_text := st.record_text, hunger_before := hv, hunger_after := none,
             editing_record_id := st.editing_record_id },
         records)
      else
        let states' := setState states u
          { user_id := u, step := "complete", datetime_utc := st.datetime_utc,
            record_text := st.record_text, hunger_before := st.hunger_before,
            hunger_after := hv, drink := st.drink,
            editing_record_id := st.editing_record_id }
        save_complete_record saveNow states' records u

/-- The `handle_hunger_back` method: it only renders a prompt chosen by
the current step and performs no assignment to `_creation_states`, so it
returns the reply text alone. -/
def handle_hunger_back (states : StateMap) (u : Nat) : String :=
  match getState states u with
  | none => "❌ Error: No active record creation."
  | some st =>
    if st.step = "hunger_before" then "📝 What did you eat?"
    else if st.step = "hunger_after" then show_hunger_scale "before"
    else "❌ Error: Invalid back navigation."

/-- The `_start_edit_record` method: loads the record's fields into a
fresh step-`datetime` draft with `editing_record_id` set. -/
def start_edit_record (states : StateMap) (records : List Rec) (u : Nat)
    (recordId : String) : String × StateMap :=
  match records.find? (fun r => r.id == recordId) with
  | none => ("❌ Record not found.", states)
  | some r =>
    ("✏️ Edit Record",
     setState states u
       { user_id := u, step := "datetime", datetime_utc := r.datetime_utc,
         record_text := r.record, hunger_before := r.hunger_before,
         hunger_after := r.hunger_after, drink := r.drink,
         editing_record_id := some recordId })

/-- The `fd_skip_time` callback of `handlers.py`: moves the draft to step
`text`, keeping every field except `drink`, which the source constructor
call omits. -/
def skip_time_callback (states : StateMap) (u : Nat) : StateMap :=
  match getState states u with
  | none => states
  | some st =>
    setState states u
      { user_id := u, step := "text", datetime_utc := st.datetime_utc,
        record_text := st.record_text, hunger_before := st.hunger_before,
        hunger_after := st.hunger_after, editing_record_id := st.editing_record_id }

/-- The module-level free-text router of `handlers.py`
(`register_food_diary_text_handler`): a message is dispatched by the
draft's current step to custom-time, text or drink handling, and silently
ignored otherwise (`none` reply, nothing changed). The record list is
threaded through untouched because none of the three dispatched methods
accesses storage. -/
def route_message (userTz : Option (DateTime → DateTime)) (states : StateMap)
    (records : List Rec) (u : Nat) (text : String) :
    Option String × StateMap × List Rec :=
  match getState states u with
  | none => (none, states, records)
  | some st =>
    if st.step = "custom_time" then
      let (r, s') := handle_custom_time_input userTz states u text
      (some r, s', records)
    else if st.step = "text" then
      let (r, s') := handle_text_input states u text
      (some r, s', records)
    else if st.step = "drink" then
      let (r, s') := handle_drink_input states u text
      (some r, s', records)
    else (none, states, records)

/-- Lowercase hexadecimal digit, as `json.dumps` uses in `\u00xx`
escapes. -/
def hexDigit (n : Nat) : Char :=
  if n < 10 then digitChar n else Char.ofNat (87 + n)

/-- Per-character JSON string escaping of `json.dumps(...,
ensure_ascii=False)`: quote, backslash and the short control escapes get
two-character forms, remaining control characters get `\u00xx`, and
everything else passes through. -/
def escChar (c : Char) : List Char :=
  if c = '"' then ['\\', '"']
  else if c = '\\' then ['\\', '\\']
  else if c = '\n' then ['\\', 'n']
  else if c = '\r' then ['\\', 'r']
  else if c = '\t' then ['\\', 't']
  else if c = '\x08' then ['\\', 'b']
  else if c = '\x0c' then ['\\', 'f']
  else if c.toNat < 32 then
    ['\\', 'u', '0', '0', hexDigit (c.toNat / 16), hexDigit (c.toNat % 16)]
  else [c]

/-- Escaping of a whole string body. -/
def escapeChars (l : List Char) : List Char := l.flatMap escChar

/-- JSON string literal. -/
def jString (s : String) : List Char := '"' :: (escapeChars s.data ++ ['"'])

/-- Structural worker for the decimal rendering: the fuel argument only
bounds the recursion depth (any fuel at least the value itself yields the
digits). -/
def natDigitsGo : Nat → Nat → List Char → List Char
  | _, 0, acc => acc
  | 0, _ + 1, acc => acc
  | f + 1, m + 1, acc => natDigitsGo f ((m + 1) / 10) (digitChar ((m + 1) % 10) :: acc)

/-- Decimal digits of a natural number (no leading zeros, `"0"` for 0),
the JSON integer rendering. -/
def natDigits (n : Nat) : List Char :=
  if n = 0 then ['0'] else natDigitsGo n n []

/-- JSON integer literal. -/
def jIntChars (i : Int) : List Char :=
  if i < 0 then '-' :: natDigits i.natAbs else natDigits i.natAbs

/-- Optional-string JSON value (`null` for Python `None`). -/
def jOptStr : Option String → List Char
  | none => ['n', 'u', 'l', 'l']
  | some s => jString s

/-- Optional-integer JSON value. -/
def jOptInt : Option Int → List Char
  | none => ['n', 'u', 'l', 'l']
  | some i => jIntChars i

/-- A serialized key with the default `": "` separator of `json.dumps`. -/
def keyChars (k : String) : List Char := '"' :: (k.data ++ ['"', ':', ' '])

/-- The `", "` item separator of `json.dumps`. -/
def commaSep : List Char := [',', ' ']

/-- Embedding of `json.dumps(record_dict, ensure_ascii=False)` for the
record dicts the diary writes, keys in their insertion order. -/
def dumps (r : Rec) : List Char :=
  '{' :: (keyChars "id" ++ jString r.id
    ++ commaSep ++ keyChars "datetime_utc" ++ jOptStr r.datetime_utc
    ++ commaSep ++ keyChars "record" ++ jOptStr r.record
    ++ commaSep ++ keyChars "hunger_before" ++ jOptInt r.hunger_before
    ++ commaSep ++ keyChars "hunger_after" ++ jOptInt r.hunger_after
    ++ commaSep ++ keyChars "drink" ++ jOptStr r.drink
    ++ commaSep ++ keyChars "picture" ++ jOptStr r.picture
    ++ ['}'])

/-- Consume an expected literal token, returning the remainder. -/
def dropLit : List Char → List Char → Option (List Char)
  | [], l => some l
  | _ :: _, [] => none
  | p :: ps, c :: cs => if c = p then dropLit ps cs else none

/-- Numeric value of a hexadecimal digit. -/
def hexVal (c : Char) : Option Nat :=
  if c.isDigit then some (c.toNat - 48)
  else if 97 ≤ c.toNat ∧ c.toNat ≤ 102 then some (c.toNat - 87)
  else if 65 ≤ c.toNat ∧ c.toNat ≤ 70 then some (c.toNat - 55)
  else none

/-- JSON string body parser (the `json.loads` lexer restricted to the
escape forms `dumps` emits): consumes characters up to the closing
unescaped quote, undoing the escapes, and returns the body together with
the remaining input. -/
def parseJStr : List Char → Option (List Char × List Char)
  | [] => none
  | c :: r =>
    if c = '"' then some ([], r)
    else if c = '\\' then
      match r with
      | [] => none
      | e :: r2 =>
        if e = 'u' then
          match r2 with
          | h1 :: h2 :: h3 :: h4 :: r3 => do
            let a ← hexVal h1
            let b ← hexVal h2
            let c2 ← hexVal h3
            let d ← hexVal h4
            let (s, rest) ← parseJStr r3
            pure (Char.ofNat (((a * 16 + b) * 16 + c2) * 16 + d) :: s, rest)
          | _ => none
        else do
          let ec ←
            if e = '"' then some '"'
            else if e = '\\' then some '\\'
            else if e = 'n' then some '\n'
            else if e = 'r' then some '\r'
            else if e = 't' then some '\t'
            else if e = 'b' then some '\x08'
            else if e = 'f' then some '\x0c'
            else none
          let (s, rest) ← parseJStr r2
          pure (ec :: s, rest)
    else do
      let (s, rest) ← parseJStr r
      pure (c :: s, rest)

/-- Maximal run of decimal digits with its value. -/
def parseNatTok (l : List Char) : Option (Nat × List Char) :=
  let ds := l.takeWhile (·.isDigit)
  if ds = [] then none
  else some (ds.foldl (fun a c => a * 10 + (c.toNat - 48)) 0, l.dropWhile (·.isDigit))

/-- A JSON string value (expects the opening quote). -/
def parseStrVal (l : List Char) : Option (String × List Char) :=
  match l with
  | [] => none
  | c :: rest => if c = '"' then (parseJStr rest).map (fun p => (⟨p.1⟩, p.2)) else none

/-- A JSON value that is either `null` or a string. -/
def parseOptStrVal (l : List Char) : Option (Option String × List Char) :=
  match dropLit ['n', 'u', 'l', 'l'] l with
  | some rest => some (none, rest)
  | none => (parseStrVal l).map (fun p => (some p.1, p.2))

/-- A JSON value that is either `null` or an integer. -/
def parseOptIntVal (l : List Char) : Option (Option Int × List Char) :=
  match dropLit ['n', 'u', 'l', 'l'] l with
  | some rest => some (none, rest)
  | none =>
    match l with
    | [] => none
    | c :: rest =>
      if c = '-' then (parseNatTok rest).map (fun p => (some (-(p.1 : Int)), p.2))
      else (parseNatTok l).map (fun p => (some ((p.1 : Int)), p.2))

/-- Embedding of `json.loads` on one line of `records.jsonl`, restricted
to the fixed object shape `dumps` produces (same keys, same order): this
is the composition the round-trip property exercises, since every line of
the file was written by `dumps`. -/
def parseLine (l : List Char) : Option Rec :=
  match dropLit ('{' :: keyChars "id") l with
  | none => none
  | some l1 =>
  match parseStrVal l1 with
  | none => none
  | some (idv, l2) =>
  match dropLit (commaSep ++ keyChars "datetime_utc") l2 with
  | none => none
  | some l3 =>
  match parseOptStrVal l3 with
  | none => none
  | some (dt, l4) =>
  match dropLit (commaSep ++ keyChars "record") l4 with
  | none => none
  | some l5 =>
  match parseOptStrVal l5 with
  | none => none
  | some (re, l6) =>
  match dropLit (commaSep ++ keyChars "hunger_before") l6 with
  | none => none
  | some l7 =>
  match parseOptIntVal l7 with
  | none => none
  | some (hb, l8) =>
  match dropLit (commaSep ++ keyChars "hunger_after") l8 with
  | none => none
  | some l9 =>
  match parseOptIntVal l9 with
  | none => none
  | some (ha, l10) =>
  match dropLit (commaSep ++ keyChars "drink") l10 with
  | none => none
  | some l11 =>
  match parseOptStrVal l11 with
  | none => none
  | some (dr, l12) =>
  match dropLit (commaSep ++ keyChars "picture") l12 with
  | none => none
  | some l13 =>
  match parseOptStrVal l13 with
  | none => none
  | some (pi, l14) =>
  match dropLit ['}'] l14 with
  | some [] =>
    some { id := idv, datetime_utc := dt, record := re, hunger_before := hb,
           hunger_after := ha, drink := dr, picture := pi }
  | _ => none

/-- Split file contents into lines at newline characters (the effect of
iterating a text file and stripping, as `read_jsonl` does). -/
def splitNl : List Char → List (List Char)
  | [] => [[]]
  | c :: rest =>
    let r := splitNl rest
    if c = '\n' then [] :: r
    else
      match r with
      | [] => [[c]]
      | h :: t => (c :: h) :: t

/-- The `for line in f: out.append(json.loads(line))` loop of
`read_jsonl`, on the non-blank stripped lines: a parse failure is the
propagated `json.JSONDecodeError`, modelled as `none`. -/
def parseLines : List (List Char) → Option (List Rec)
  | [] => some []
  | l :: ls =>
    match parseLine l with
    | none => none
    | some r =>
      match parseLines ls with
      | none => none
      | some rs => some (r :: rs)

/-- Embedding of `UserStorage.read_jsonl`: split into lines, strip each,
skip blanks, `json.loads` each remaining line. -/
def read_jsonl (file : List Char) : Option (List Rec) :=
  parseLines (((splitNl file).map pyStrip).filter (fun l => l ≠ []))

/-- Embedding of `UserStorage.write_jsonl`: open in append mode and write
one `json.dumps` line per item. -/
def write_jsonl (file : List Char) (items : List Rec) : List Char :=
  file ++ items.flatMap (fun r => dumps r ++ ['\n'])

/-- Embedding of `UserStorage.write_text`: overwrite the file. -/
def write_text (_file : List Char) (text : String) : List Char := text.data

/-- The replace-all idiom of `_save_complete_record` /
`_remove_record`: clear the file with `write_text(..., "")`, then
`write_jsonl` the full list. -/
def replace_all (file : List Char) (records : List Rec) : List Char :=
  write_jsonl (write_text file "") records

/-- A sequence of completed new-record flows: each element is the save
instant together with the completed draft, and each save runs
`_save_complete_record` on a state map holding that draft. -/
def runSaves (saves : List (DateTime × RecordCreationState)) : List Rec :=
  saves.foldl
    (fun recs p => (save_complete_record p.1 [(p.2.user_id, p.2)] recs p.2.user_id).2.2)
    []

/-! Helper lemmas about the serialization layer. -/

theorem dropLit_append (p l : List Char) : dropLit p (p ++ l) = some l := by
  induction p with
  | nil => rfl
  | cons c ps ih => simp [dropLit, ih]

theorem digitChar_toNat {k : Nat} (h : k < 10) : (digitChar k).toNat = 48 + k := by
  interval_cases k <;> decide

theorem digitChar_isDigit {k : Nat} (h : k < 10) : (digitChar k).isDigit = true := by
  interval_cases k <;> decide

theorem digitChar_inj {a b : Nat} (ha : a < 10) (hb : b < 10)
    (h : digitChar a = digitChar b) : a = b := by
  have := congrArg Char.toNat h
  rw [digitChar_toNat ha, digitChar_toNat hb] at this
  omega

theorem pad2_inj {a b : Nat} (ha : a < 100) (hb : b < 100) (h : pad2 a = pad2 b) : a = b := by
  simp only [pad2, List.cons.injEq, and_true] at h
  have h1 := digitChar_inj (by omega) (by omega) h.1
  have h2 := digitChar_inj (by omega) (by omega) h.2
  omega

theorem pad4_inj {a b : Nat} (ha : a < 10000) (hb : b < 10000) (h : pad4 a = pad4 b) : a = b := by
  simp only [pad4, List.cons.injEq, and_true] at h
  have h1 := digitChar_inj (by omega) (by omega) h.1
  have h2 := digitChar_inj (by omega) (by omega) h.2.1
  have h3 := digitChar_inj (by omega) (by omega) h.2.2.1
  have h4 := digitChar_inj (by omega) (by omega) h.2.2.2
  omega

theorem fmtTimestamp_inj {d1 d2 : DateTime} (h1 : ValidDT d1) (h2 : ValidDT d2)
    (h : fmtTimestamp d1 = fmtTimestamp d2) : d1 = d2 := by
  obtain ⟨hy1, hmo1, hd1, hh1, hmi1, hs1⟩ := h1
  obtain ⟨hy2, hmo2, hd2, hh2, hmi2, hs2⟩ := h2
  have hl : (pad4 d1.year ++ pad2 d1.month ++ pad2 d1.day ++ '_' ::
      (pad2 d1.hour ++ pad2 d1.minute ++ pad2 d1.second)) =
      (pad4 d2.year ++ pad2 d2.month ++ pad2 d2.day ++ '_' ::
      (pad2 d2.hour ++ pad2 d2.minute ++ pad2 d2.second)) := by
    have := congrArg String.data h
    simpa [fmtTimestamp] using this
  simp only [List.append_assoc, List.cons_append] at hl
  obtain ⟨hy, hl⟩ := List.append_inj hl rfl
  obtain ⟨hmo, hl⟩ := List.append_inj hl rfl
  obtain ⟨hd, hl⟩ := List.append_inj hl rfl
  simp only [List.cons.injEq, true_and] at hl
  obtain ⟨hh, hl⟩ := List.append_inj hl rfl
  obtain ⟨hmi, hs⟩ := List.append_inj hl rfl
  have := pad4_inj hy1 hy2 hy
  have := pad2_inj hmo1 hmo2 hmo
  have := pad2_inj hd1 hd2 hd
  have := pad2_inj hh1 hh2 hh
  have := pad2_inj hmi1 hmi2 hmi
  have := pad2_inj hs1 hs2 hs
  cases d1; cases d2
  simp_all

theorem hexVal_hexDigit {n : Nat} (h : n < 16) : hexVal (hexDigit n) = some n := by
  interval_cases n <;> decide

/-- Stepping lemma: prepending one escaped character to input the parser
already accepts prepends the character to the parse. -/
theorem parseJStr_cons_plain {c : Char} (hq : c ≠ '"') (hb : c ≠ '\\') (l : List Char) :
    parseJStr (c :: l) =
      Option.bind (parseJStr l) (fun p => some (c :: p.1, p.2)) := by
  conv_lhs => rw [parseJStr.eq_def]
  simp only [if_neg hq, if_neg hb]
  rfl

theorem parseJStr_escChar (c : Char) (l : List Char) (s : List Char) (rest : List Char)
    (h : parseJStr l = some (s, rest)) :
    parseJStr (escChar c ++ l) = some (c :: s, rest) := by
  by_cases h1 : c = '"'
  · subst h1
    have e : parseJStr ('\\' :: '"' :: l) =
        Option.bind (parseJStr l) (fun p => some ('"' :: p.1, p.2)) := by
      conv_lhs => rw [parseJStr.eq_def]
      rfl
    rw [show escChar '"' ++ l = '\\' :: '"' :: l from rfl, e, h]
    rfl
  by_cases h2 : c = '\\'
  · subst h2
    have e : parseJStr ('\\' :: '\\' :: l) =
        Option.bind (parseJStr l) (fun p => some ('\\' :: p.1, p.2)) := by
      conv_lhs => rw [parseJStr.eq_def]
      rfl
    rw [show escChar '\\' ++ l = '\\' :: '\\' :: l from rfl, e, h]
    rfl
  by_cases h3 : c = '\n'
  · subst h3
    have e : parseJStr ('\\' :: 'n' :: l) =
        Option.bind (parseJStr l) (fun p => some ('\n' :: p.1, p.2)) := by
      conv_lhs => rw [parseJStr.eq_def]
      rfl
    rw [show escChar '\n' ++ l = '\\' :: 'n' :: l from rfl, e, h]
    rfl
  by_cases h4 : c = '\r'
  · subst h4
    have e : parseJStr ('\\' :: 'r' :: l) =
        Option.bind (parseJStr l) (fun p => some ('\r' :: p.1, p.2)) := by
      conv_lhs => rw [parseJStr.eq_def]
      rfl
    rw [show escChar '\r' ++ l = '\\' :: 'r' :: l from rfl, e, h]
    rfl
  by_cases h5 : c = '\t'
  · subst h5
    have e : parseJStr ('\\' :: 't' :: l) =
        Option.bind (parseJStr l) (fun p => some ('\t' :: p.1, p.2)) := by
      conv_lhs => rw [parseJStr.eq_def]
      rfl
    rw [show escChar '\t' ++ l = '\\' :: 't' :: l from rfl, e, h]
    rfl
  by_cases h6 : c = '\x08'
  · subst h6
    have e : parseJStr ('\\' :: 'b' :: l) =
        Option.bind (parseJStr l) (fun p => some ('\x08' :: p.1, p.2)) := by
      conv_lhs => rw [parseJStr.eq_def]
      rfl
    rw [show escChar '\x08' ++ l = '\\' :: 'b' :: l from rfl, e, h]
    rfl
  by_cases h7 : c = '\x0c'
  · subst h7
    have e : parseJStr ('\\' :: 'f' :: l) =
        Option.bind (parseJStr l) (fun p => some ('\x0c' :: p.1, p.2)) := by
      conv_lhs => rw [parseJStr.eq_def]
      rfl
    rw [show escChar '\x0c' ++ l = '\\' :: 'f' :: l from rfl, e, h]
    rfl
  by_cases h8 : c.toNat < 32
  · have hesc : escChar c ++ l =
        '\\' :: 'u' :: '0' :: '0' :: hexDigit (c.toNat / 16) :: hexDigit (c.toNat % 16) :: l := by
      rw [escChar]
      rw [if_neg h1, if_neg h2, if_neg h3, if_neg h4, if_neg h5, if_neg h6, if_neg h7,
        if_pos h8]
      rfl
    have e : ∀ d1 d2 : Char,
        parseJStr ('\\' :: 'u' :: '0' :: '0' :: d1 :: d2 :: l) =
        Option.bind (hexVal '0') (fun a =>
          Option.bind (hexVal '0') (fun b =>
            Option.bind (hexVal d1) (fun c2 =>
              Option.bind (hexVal d2) (fun d =>
                Option.bind (parseJStr l) (fun p =>
                  some (Char.ofNat (((a * 16 + b) * 16 + c2) * 16 + d) :: p.1, p.2)))))) := by
      intro d1 d2
      conv_lhs => rw [parseJStr.eq_def]
      rfl
    rw [hesc, e, h, hexVal_hexDigit (show c.toNat / 16 < 16 by omega),
      hexVal_hexDigit (show c.toNat % 16 < 16 by omega)]
    have hv : ((0 * 16 + 0) * 16 + c.toNat / 16) * 16 + c.toNat % 16 = c.toNat := by
      have e0 : hexVal '0' = some 0 := rfl
      omega
    have e0 : hexVal '0' = some 0 := rfl
    rw [e0]
    simp only [Option.some_bind]
    rw [hv, Char.ofNat_toNat]
  · have hesc : escChar c ++ l = c :: l := by
      rw [escChar]
      rw [if_neg h1, if_neg h2, if_neg h3, if_neg h4, if_neg h5, if_neg h6, if_neg h7,
        if_neg h8]
      rfl
    rw [hesc, parseJStr_cons_plain h1 h2, h]
    rfl

theorem natDigitsGo_all_digit (f : Nat) :
    ∀ (m : Nat) (acc : List Char), (∀ c ∈ acc, c.isDigit = true) →
      ∀ c ∈ natDigitsGo f m acc, c.isDigit = true := by
  induction f with
  | zero =>
    intro m acc hacc c hc
    match m with
    | 0 => exact hacc c hc
    | k + 1 => exact hacc c hc
  | succ f ih =>
    intro m acc hacc c hc
    match m with
    | 0 => exact hacc c hc
    | k + 1 =>
      rw [natDigitsGo] at hc
      refine ih ((k + 1) / 10) _ ?_ c hc
      intro d hd
      rcases List.mem_cons.mp hd with h | h
      · subst h
        exact digitChar_isDigit (Nat.mod_lt _ (by omega))
      · exact hacc d h

theorem natDigits_all_digit (n : Nat) : ∀ c ∈ natDigits n, c.isDigit = true := by
  rw [natDigits]
  by_cases h : n = 0
  · simp [h]
  · simp only [if_neg h]
    exact natDigitsGo_all_digit n n [] (by simp)

theorem natDigitsGo_ne_nil (f : Nat) :
    ∀ (m : Nat) (acc : List Char), acc ≠ [] ∨ (0 < m ∧ m ≤ f) →
      natDigitsGo f m acc ≠ [] := by
  induction f with
  | zero =>
    intro m acc h
    match m with
    | 0 =>
      rw [natDigitsGo]
      rcases h with h | h
      · exact h
      · omega
    | k + 1 =>
      rw [natDigitsGo]
      rcases h with h | h
      · exact h
      · omega
  | succ f ih =>
    intro m acc h
    match m with
    | 0 =>
      rw [natDigitsGo]
      rcases h with h | h
      · exact h
      · omega
    | k + 1 =>
      rw [natDigitsGo]
      exact ih ((k + 1) / 10) _ (Or.inl (by simp))

theorem natDigits_ne_nil (n : Nat) : natDigits n ≠ [] := by
  rw [natDigits]
  by_cases h : n = 0
  · simp [h]
  · simp only [if_neg h]
    exact natDigitsGo_ne_nil n n [] (Or.inr (by omega))

/-- The decimal fold used by the token parser. -/
def digitFold (l : List Char) : Nat := l.foldl (fun a c => a * 10 + (c.toNat - 48)) 0

theorem natDigitsGo_fold (f : Nat) :
    ∀ (m : Nat) (acc : List Char), 0 < m → m ≤ f →
      digitFold (natDigitsGo f m acc) =
        acc.foldl (fun a c => a * 10 + (c.toNat - 48)) m := by
  induction f with
  | zero =>
    intro m acc h1 h2
    omega
  | succ f ih =>
    intro m acc h1 h2
    match m with
    | 0 => omega
    | k + 1 =>
      rw [natDigitsGo]
      have hd : (digitChar ((k + 1) % 10)).toNat - 48 = (k + 1) % 10 := by
        rw [digitChar_toNat (Nat.mod_lt _ (by omega))]
        omega
      by_cases hq : (k + 1) / 10 = 0
      · rw [hq]
        have e0 : ∀ acc2 : List Char, natDigitsGo f 0 acc2 = acc2 := by
          intro acc2
          match f with
          | 0 => rfl
          | g + 1 => rfl
        rw [e0]
        simp only [digitFold, List.foldl_cons, hd]
        have e : 0 * 10 + (k + 1) % 10 = k + 1 := by omega
        rw [e]
      · rw [ih ((k + 1) / 10) _ (by omega) (by omega)]
        simp only [List.foldl_cons, hd]
        have e : (k + 1) / 10 * 10 + (k + 1) % 10 = k + 1 := by omega
        rw [e]

theorem digitFold_natDigits (n : Nat) : digitFold (natDigits n) = n := by
  rw [natDigits]
  by_cases h : n = 0
  · simp [h, digitFold]
  · simp only [if_neg h]
    rw [natDigitsGo_fold n n [] (by omega) (by omega)]
    rfl

theorem takeWhile_digit_split (a : List Char) (c : Char) (b : List Char)
    (ha : ∀ x ∈ a, x.isDigit = true) (hc : c.isDigit = false) :
    (a ++ c :: b).takeWhile (·.isDigit) = a ∧
      (a ++ c :: b).dropWhile (·.isDigit) = c :: b := by
  induction a with
  | nil =>
    constructor
    · simp [List.takeWhile_cons, hc]
    · simp [List.dropWhile_cons, hc]
  | cons x xs ih =>
    have hx : x.isDigit = true := ha x (by simp)
    have := ih (fun y hy => ha y (by simp [hy]))
    constructor
    · simpa [List.takeWhile_cons, hx] using this.1
    · simpa [List.dropWhile_cons, hx] using this.2

theorem parseNatTok_natDigits (n : Nat) (c : Char) (b : List Char) (hc : c.isDigit = false) :
    parseNatTok (natDigits n ++ c :: b) = some (n, c :: b) := by
  obtain ⟨ht, hd⟩ := takeWhile_digit_split (natDigits n) c b (natDigits_all_digit n) hc
  rw [parseNatTok]
  simp only [ht, hd]
  rw [if_neg (by simpa using natDigits_ne_nil n)]
  rw [show (natDigits n).foldl (fun a c => a * 10 + (c.toNat - 48)) 0 = digitFold (natDigits n)
    from rfl]
  rw [digitFold_natDigits]

/-- Round trip of the string escaping: parsing the escaped body followed
by a closing quote recovers the body. -/
theorem parseJStr_escape (s : List Char) (rest : List Char) :
    parseJStr (escapeChars s ++ '"' :: rest) = some (s, rest) := by
  induction s with
  | nil =>
    show parseJStr ('"' :: rest) = some ([], rest)
    conv_lhs => rw [parseJStr.eq_def]
    rfl
  | cons c cs ih =>
    have : escapeChars (c :: cs) ++ '"' :: rest = escChar c ++ (escapeChars cs ++ '"' :: rest) := by
      simp [escapeChars]
    rw [this]
    exact parseJStr_escChar c _ cs rest ih


theorem stringMk_data (s : String) : String.mk s.data = s := by
  cases s
  rfl

theorem parseStrVal_jString (s : String) (rest : List Char) :
    parseStrVal (jString s ++ rest) = some (s, rest) := by
  have e : jString s ++ rest = '"' :: (escapeChars s.data ++ '"' :: rest) := by
    simp [jString]
  rw [e, parseStrVal]
  rw [if_pos rfl, parseJStr_escape]
  simp [stringMk_data]

theorem parseOptStrVal_jOptStr (o : Option String) (rest : List Char) :
    parseOptStrVal (jOptStr o ++ rest) = some (o, rest) := by
  cases o with
  | none =>
    rw [show jOptStr none ++ rest = ['n', 'u', 'l', 'l'] ++ rest from rfl]
    rw [parseOptStrVal, dropLit_append]
  | some s =>
    have e : jOptStr (some s) ++ rest = '"' :: (escapeChars s.data ++ '"' :: rest) := by
      simp [jOptStr, jString]
    rw [parseOptStrVal]
    rw [show dropLit ['n', 'u', 'l', 'l'] (jOptStr (some s) ++ rest) = none by
      rw [e]; rfl]
    rw [show (jOptStr (some s) : List Char) = jString s from rfl, parseStrVal_jString]
    rfl

theorem parseOptIntVal_jOptInt (o : Option Int) (t : List Char) :
    parseOptIntVal (jOptInt o ++ ',' :: t) = some (o, ',' :: t) := by
  cases o with
  | none =>
    rw [show jOptInt none ++ ',' :: t = ['n', 'u', 'l', 'l'] ++ ',' :: t from rfl]
    rw [parseOptIntVal.eq_def, dropLit_append]
  | some i =>
    by_cases hi : i < 0
    · have e : jOptInt (some i) ++ ',' :: t = '-' :: (natDigits i.natAbs ++ ',' :: t) := by
        simp [jOptInt, jIntChars, hi]
      rw [parseOptIntVal.eq_def, e]
      rw [show dropLit ['n', 'u', 'l', 'l'] ('-' :: (natDigits i.natAbs ++ ',' :: t)) = none
        from rfl]
      rw [show (match '-' :: (natDigits i.natAbs ++ ',' :: t) with
        | [] => none
        | c :: rest =>
          if c = '-' then (parseNatTok rest).map (fun p => (some (-(p.1 : Int)), p.2))
          else (parseNatTok ('-' :: (natDigits i.natAbs ++ ',' :: t))).map
            (fun p => (some ((p.1 : Int)), p.2))) =
        (parseNatTok (natDigits i.natAbs ++ ',' :: t)).map
          (fun p => (some (-(p.1 : Int)), p.2)) from rfl]
      rw [parseNatTok_natDigits i.natAbs ',' t (by decide)]
      have hv : -((i.natAbs : Nat) : Int) = i := by omega
      rw [show Option.map (fun p => (some (-((p.1 : Nat) : Int)), p.2))
        (some (i.natAbs, ',' :: t)) =
        some (some (-((i.natAbs : Nat) : Int)), ',' :: t) from rfl, hv]
    · obtain ⟨d, ds, hds⟩ : ∃ d ds, natDigits i.natAbs = d :: ds := by
        cases hnd : natDigits i.natAbs with
        | nil => exact absurd hnd (natDigits_ne_nil _)
        | cons d ds => exact ⟨d, ds, rfl⟩
      have hdd : d.isDigit = true := natDigits_all_digit i.natAbs d (by rw [hds]; simp)
      have hdn : d ≠ 'n' := by
        intro h
        rw [h] at hdd
        exact absurd hdd (by decide)
      have hdm : d ≠ '-' := by
        intro h
        rw [h] at hdd
        exact absurd hdd (by decide)
      have e : jOptInt (some i) ++ ',' :: t = d :: (ds ++ ',' :: t) := by
        simp [jOptInt, jIntChars, hi, hds]
      rw [parseOptIntVal.eq_def, e]
      rw [show dropLit ['n', 'u', 'l', 'l'] (d :: (ds ++ ',' :: t)) =
        if d = 'n' then dropLit ['u', 'l', 'l'] (ds ++ ',' :: t) else none from rfl]
      rw [if_neg hdn]
      have em : (match d :: (ds ++ ',' :: t) with
        | [] => none
        | c :: rest =>
          if c = '-' then (parseNatTok rest).map (fun p => (some (-(p.1 : Int)), p.2))
          else (parseNatTok (d :: (ds ++ ',' :: t))).map
            (fun p => (some ((p.1 : Int)), p.2))) =
        (parseNatTok (d :: (ds ++ ',' :: t))).map (fun p => (some ((p.1 : Int)), p.2)) := by
        rw [show (match d :: (ds ++ ',' :: t) with
          | [] => none
          | c :: rest =>
            if c = '-' then (parseNatTok rest).map (fun p => (some (-(p.1 : Int)), p.2))
            else (parseNatTok (d :: (ds ++ ',' :: t))).map
              (fun p => (some ((p.1 : Int)), p.2))) =
          if d = '-' then (parseNatTok (ds ++ ',' :: t)).map
            (fun p => (some (-(p.1 : Int)), p.2))
          else (parseNatTok (d :: (ds ++ ',' :: t))).map
            (fun p => (some ((p.1 : Int)), p.2)) from rfl]
        rw [if_neg hdm]
      rw [em]
      rw [show d :: (ds ++ ',' :: t) = (d :: ds) ++ ',' :: t from rfl, ← hds]
      rw [parseNatTok_natDigits i.natAbs ',' t (by decide)]
      have hv : ((i.natAbs : Nat) : Int) = i := by omega
      rw [show Option.map (fun p => (some ((p.1 : Nat) : Int), p.2))
        (some (i.natAbs, ',' :: t)) =
        some (some ((i.natAbs : Nat) : Int), ',' :: t) from rfl, hv]

theorem parseOptIntVal_commaSep (o : Option Int) (k rest : List Char) :
    parseOptIntVal (jOptInt o ++ ((commaSep ++ k) ++ rest)) =
      some (o, (commaSep ++ k) ++ rest) := by
  have e : (commaSep ++ k) ++ rest = ',' :: (' ' :: (k ++ rest)) := rfl
  rw [e, parseOptIntVal_jOptInt]

/-- The serialized record, regrouped to expose the token boundaries the
parser consumes. -/
theorem dumps_eq_nested (r : Rec) : dumps r =
    ('{' :: keyChars "id") ++ (jString r.id ++
    ((commaSep ++ keyChars "datetime_utc") ++ (jOptStr r.datetime_utc ++
    ((commaSep ++ keyChars "record") ++ (jOptStr r.record ++
    ((commaSep ++ keyChars "hunger_before") ++ (jOptInt r.hunger_before ++
    ((commaSep ++ keyChars "hunger_after") ++ (jOptInt r.hunger_after ++
    ((commaSep ++ keyChars "drink") ++ (jOptStr r.drink ++
    ((commaSep ++ keyChars "picture") ++ (jOptStr r.picture ++
      ['}']))))))))))))) := by
  simp [dumps, List.append_assoc]

/-- Round trip of one record through serialization and parsing: this is
`json.loads(json.dumps(d)) == d` for the diary's record dicts. -/
theorem parseLine_dumps (r : Rec) : parseLine (dumps r) = some r := by
  rw [dumps_eq_nested, parseLine]
  rw [dropLit_append]
  simp only []
  rw [parseStrVal_jString]
  simp only []
  rw [dropLit_append]
  simp only []
  rw [parseOptStrVal_jOptStr]
  simp only []
  rw [dropLit_append]
  simp only []
  rw [parseOptStrVal_jOptStr]
  simp only []
  rw [dropLit_append]
  simp only []
  rw [parseOptIntVal_commaSep]
  simp only []
  rw [dropLit_append]
  simp only []
  rw [parseOptIntVal_commaSep]
  simp only []
  rw [dropLit_append]
  simp only []
  rw [parseOptStrVal_jOptStr]
  simp only []
  rw [dropLit_append]
  simp only []
  rw [parseOptStrVal_jOptStr]
  simp only []
  rfl

theorem splitNl_append (a b : List Char) (h : '\n' ∉ a) :
    splitNl (a ++ '\n' :: b) = a :: splitNl b := by
  induction a with
  | nil =>
    rw [List.nil_append, splitNl]
    simp
  | cons c cs ih =>
    have hc : c ≠ '\n' := by
      intro e
      exact h (e ▸ List.mem_cons_self c cs)
    have hcs : '\n' ∉ cs := fun e => h (List.mem_cons_of_mem c e)
    rw [List.cons_append, splitNl]
    simp only [if_neg hc]
    rw [ih hcs]

theorem hexDigit_ne_nl {n : Nat} (h : n < 16) : hexDigit n ≠ '\n' := by
  interval_cases n <;> decide

theorem noNl_escChar (c : Char) : '\n' ∉ escChar c := by
  rw [escChar]
  by_cases h1 : c = '"'
  · simp [h1]
  by_cases h2 : c = '\\'
  · simp [h1, h2]
  by_cases h3 : c = '\n'
  · simp [h1, h2, h3]
  by_cases h4 : c = '\r'
  · simp [h1, h2, h3, h4]
  by_cases h5 : c = '\t'
  · simp [h1, h2, h3, h4, h5]
  by_cases h6 : c = '\x08'
  · simp [h1, h2, h3, h4, h5, h6]
  by_cases h7 : c = '\x0c'
  · simp [h1, h2, h3, h4, h5, h6, h7]
  by_cases h8 : c.toNat < 32
  · simp only [if_neg h1, if_neg h2, if_neg h3, if_neg h4, if_neg h5, if_neg h6, if_neg h7,
      if_pos h8, List.mem_cons, List.not_mem_nil, or_false]
    push_neg
    refine ⟨by decide, by decide, by decide, by decide, ?_, ?_⟩
    · exact fun e => hexDigit_ne_nl (show c.toNat / 16 < 16 by omega) e.symm
    · exact fun e => hexDigit_ne_nl (show c.toNat % 16 < 16 by omega) e.symm
  · simp only [if_neg h1, if_neg h2, if_neg h3, if_neg h4, if_neg h5, if_neg h6, if_neg h7,
      if_neg h8, List.mem_cons, List.not_mem_nil, or_false]
    exact fun e => h3 e.symm

theorem noNl_escapeChars (l : List Char) : '\n' ∉ escapeChars l := by
  rw [escapeChars]
  intro h
  obtain ⟨c, _, hc⟩ := List.mem_flatMap.mp h
  exact noNl_escChar c hc

theorem noNl_jString (s : String) : '\n' ∉ jString s := by
  rw [jString]
  intro h
  rcases List.mem_cons.mp h with h | h
  · exact absurd h (by decide)
  · rcases List.mem_append.mp h with h | h
    · exact noNl_escapeChars _ h
    · simp at h

theorem ne_nl_of_digit {c : Char} (h : c.isDigit = true) : c ≠ '\n' := by
  intro e
  rw [e] at h
  exact absurd h (by decide)

theorem noNl_natDigits (n : Nat) : '\n' ∉ natDigits n := by
  intro h
  exact ne_nl_of_digit (natDigits_all_digit n '\n' h) rfl

theorem noNl_jIntChars (i : Int) : '\n' ∉ jIntChars i := by
  rw [jIntChars]
  by_cases h : i < 0
  · rw [if_pos h]
    intro hm
    rcases List.mem_cons.mp hm with hm | hm
    · exact absurd hm (by decide)
    · exact noNl_natDigits _ hm
  · rw [if_neg h]
    exact noNl_natDigits _

theorem noNl_jOptStr (o : Option String) : '\n' ∉ jOptStr o := by
  cases o with
  | none => decide
  | some s => exact noNl_jString s

theorem noNl_jOptInt (o : Option Int) : '\n' ∉ jOptInt o := by
  cases o with
  | none => decide
  | some i => exact noNl_jIntChars i

/-- The serialized record with its outer braces made explicit. -/
theorem dumps_shape (r : Rec) : dumps r =
    '{' :: ((keyChars "id" ++ jString r.id ++ commaSep ++ keyChars "datetime_utc" ++
      jOptStr r.datetime_utc ++ commaSep ++ keyChars "record" ++ jOptStr r.record ++
      commaSep ++ keyChars "hunger_before" ++ jOptInt r.hunger_before ++ commaSep ++
      keyChars "hunger_after" ++ jOptInt r.hunger_after ++ commaSep ++ keyChars "drink" ++
      jOptStr r.drink ++ commaSep ++ keyChars "picture" ++ jOptStr r.picture) ++ ['}']) := by
  simp [dumps, List.append_assoc]

theorem noNl_dumps (r : Rec) : '\n' ∉ dumps r := by
  rw [dumps_shape]
  intro h
  rcases List.mem_cons.mp h with h | h
  · exact absurd h (by decide)
  rcases List.mem_append.mp h with h | h
  swap
  · simp at h
  simp only [List.append_assoc, List.mem_append] at h
  rcases h with h | h
  · exact absurd h (by decide)
  rcases h with h | h
  · exact noNl_jString _ h
  rcases h with h | h
  · exact absurd h (by decide)
  rcases h with h | h
  · exact absurd h (by decide)
  rcases h with h | h
  · exact noNl_jOptStr _ h
  rcases h with h | h
  · exact absurd h (by decide)
  rcases h with h | h
  · exact absurd h (by decide)
  rcases h with h | h
  · exact noNl_jOptStr _ h
  rcases h with h | h
  · exact absurd h (by decide)
  rcases h with h | h
  · exact absurd h (by decide)
  rcases h with h | h
  · exact noNl_jOptInt _ h
  rcases h with h | h
  · exact absurd h (by decide)
  rcases h with h | h
  · exact absurd h (by decide)
  rcases h with h | h
  · exact noNl_jOptInt _ h
  rcases h with h | h
  · exact absurd h (by decide)
  rcases h with h | h
  · exact absurd h (by decide)
  rcases h with h | h
  · exact noNl_jOptStr _ h
  rcases h with h | h
  · exact absurd h (by decide)
  rcases h with h | h
  · exact absurd h (by decide)
  exact noNl_jOptStr _ h

theorem pyStrip_wrap (a : Char) (m : List Char) (b : Char)
    (ha : isPySpace a = false) (hb : isPySpace b = false) :
    pyStrip (a :: (m ++ [b])) = a :: (m ++ [b]) := by
  rw [pyStrip]
  rw [List.dropWhile_cons_of_neg (by simp [ha])]
  rw [show (a :: (m ++ [b])).reverse = b :: (m.reverse ++ [a]) by simp]
  rw [List.dropWhile_cons_of_neg (by simp [hb])]
  simp

theorem pyStrip_dumps (r : Rec) : pyStrip (dumps r) = dumps r := by
  rw [dumps_shape]
  exact pyStrip_wrap '{' _ '}' (by decide) (by decide)

theorem dumps_ne_nil (r : Rec) : dumps r ≠ [] := by
  rw [dumps_shape]
  simp

theorem splitNl_flat (rs : List Rec) :
    splitNl (rs.flatMap (fun r => dumps r ++ ['\n'])) = rs.map dumps ++ [[]] := by
  induction rs with
  | nil => rfl
  | cons r rs ih =>
    rw [List.flatMap_cons]
    rw [show (dumps r ++ ['\n']) ++ rs.flatMap (fun r => dumps r ++ ['\n']) =
      dumps r ++ '\n' :: rs.flatMap (fun r => dumps r ++ ['\n']) by simp]
    rw [splitNl_append _ _ (noNl_dumps r), ih]
    rfl

theorem parseLines_map_dumps (rs : List Rec) : parseLines (rs.map dumps) = some rs := by
  induction rs with
  | nil => rfl
  | cons r rs ih =>
    rw [List.map_cons, parseLines, parseLine_dumps, ih]


theorem map_pyStrip_map_dumps (rs : List Rec) :
    List.map pyStrip (List.map dumps rs) = List.map dumps rs := by
  induction rs with
  | nil => rfl
  | cons r rs ih => rw [List.map_cons, List.map_cons, pyStrip_dumps, ih]

theorem filter_map_dumps (rs : List Rec) :
    List.filter (fun l => decide (l ≠ [])) (List.map dumps rs) = List.map dumps rs :=
  List.filter_eq_self.mpr (by
    intro a ha
    obtain ⟨r, _, hr⟩ := List.mem_map.mp ha
    subst hr
    simpa using dumps_ne_nil r)

/-- Reading back a freshly rewritten file yields exactly the written
records. -/
theorem read_jsonl_write_jsonl (rs : List Rec) :
    read_jsonl (write_jsonl [] rs) = some rs := by
  rw [read_jsonl]
  rw [write_jsonl]
  rw [List.nil_append]
  rw [splitNl_flat]
  rw [List.map_append]
  rw [map_pyStrip_map_dumps]
  rw [List.filter_append]
  rw [filter_map_dumps]
  rw [show List.filter (fun l => decide (l ≠ [])) (List.map pyStrip [[]]) = [] from rfl]
  rw [List.append_nil]
  rw [parseLines_map_dumps]

/-! Helper lemmas about the conversation-state map and the diary
operations. -/

theorem getState_delState (m : StateMap) (u : Nat) : getState (delState m u) u = none := by
  induction m with
  | nil => rfl
  | cons p m ih =>
    by_cases h : p.1 = u
    · simp only [delState, List.filter_cons, h, bne_self_eq_false, if_neg]
      exact ih
    · simp only [delState, List.filter_cons] at ih ⊢
      rw [if_pos (by simp [h])]
      rw [getState, List.find?_cons, show ((p.1 == u) = false) by simp [h]]
      exact ih

theorem getState_singleton (u : Nat) (st : RecordCreationState) :
    getState [(u, st)] u = some st := by
  simp [getState, List.find?]

/-- One completed new-record save appends exactly the synthesized
record. -/
theorem save_new_append (t : DateTime) (st : RecordCreationState) (recs : List Rec)
    (hed : st.editing_record_id = none) :
    (save_complete_record t [(st.user_id, st)] recs st.user_id).2.2 =
      recs ++ [mkNewRec t st] := by
  rw [save_complete_record, getState_singleton]
  simp only []
  rw [hed]

theorem runSaves_foldl (saves : List (DateTime × RecordCreationState)) (init : List Rec)
    (hed : ∀ p ∈ saves, p.2.editing_record_id = none) :
    saves.foldl
      (fun recs p => (save_complete_record p.1 [(p.2.user_id, p.2)] recs p.2.user_id).2.2)
      init = init ++ saves.map (fun p => mkNewRec p.1 p.2) := by
  induction saves generalizing init with
  | nil => simp
  | cons p ps ih =>
    rw [List.foldl_cons, save_new_append p.1 p.2 init (hed p (by simp))]
    rw [ih _ (fun q hq => hed q (by simp [hq]))]
    simp

theorem runSaves_ids (saves : List (DateTime × RecordCreationState))
    (hed : ∀ p ∈ saves, p.2.editing_record_id = none) :
    (runSaves saves).map (·.id) = saves.map (fun p => fmtTimestamp p.1) := by
  rw [runSaves, runSaves_foldl saves [] hed, List.nil_append, List.map_map]
  rfl

theorem getElem?_take_drop (l : List Rec) (off k i : Nat) :
    ((l.drop off).take k)[i]? = if i < k then l[off + i]? else none := by
  by_cases h : i < k
  · rw [if_pos h, List.getElem?_take_of_lt h, List.getElem?_drop]
  · rw [if_neg h]
    apply List.getElem?_eq_none
    have h1 : ((l.drop off).take k).length ≤ k := List.length_take_le k (l.drop off)
    omega

/-! Sample data for the concrete claim evaluations. -/

/-- A fixed flow-start instant. -/
def tNow : DateTime := { year := 2024, month := 3, day := 10, hour := 12, minute := 0, second := 0 }

/-- A fixed save instant (later the same day). -/
def tSave : DateTime := { year := 2024, month := 3, day := 10, hour := 12, minute := 5, second := 7 }

/-- A pre-existing stored record with id `"A"`. -/
def recA : Rec :=
  { id := "A", datetime_utc := some "2024-01-01T08:00:00+00:00Z", record := some "toast",
    hunger_before := some 2, hunger_after := some 8, drink := some "juice", picture := none }

/-- Edit flow on the one-record store: select the record, then choose
time `now`. -/
def c1States1 : StateMap := (start_edit_record [] [recA] 7 "A").2

/-- After the time choice. -/
def c1States2 : StateMap := (handle_time_selection tNow c1States1 7 "now").2

/-- After entering the text. -/
def c1States3 : StateMap := (handle_text_input c1States2 7 "eggs").2

/-- After entering the drink. -/
def c1States4 : StateMap := (handle_drink_input c1States3 7 "tea").2

/-- After choosing hunger-before level 3. -/
def c1Step5 : String × StateMap × List Rec :=
  handle_hunger_selection tSave c1States4 [recA] 7 "before" "3"

/-- After choosing hunger-after level 7, which saves. -/
def c1Final : String × StateMap × List Rec :=
  handle_hunger_selection tSave c1Step5.2.1 c1Step5.2.2 7 "after" "7"

/-- C1: For every user whose draft has `editing_record_id` set to the id
of a record present in their store, completing the flow (through any
permitted path of time choice, text, drink and hunger inputs) leaves the
stored record list at the same length with no duplicate, and only the
edited record's fields changed. REFUTED on the code: starting an edit of
record `"A"` and choosing the permitted time option `now` resets
`editing_record_id` to `None` (second conjunct), so completing the flow
takes the append branch and the store grows from one record to two, the
old record still present unchanged — the reply even announces an added,
not an updated, record. -/
theorem c1_edit_time_choice_appends :
    (getState c1States1 7).map (fun st => st.editing_record_id) = some (some "A") ∧
    (getState c1States2 7).map (fun st => st.editing_record_id) = some none ∧
    c1Final.2.2.length = 2 ∧
    c1Final.2.2.map (fun r => r.id) = ["A", fmtTimestamp tSave] ∧
    recA ∈ c1Final.2.2 ∧
    c1Final.1 = "✅ Record Added Successfully!" := by
  decide

/-- New-record flow: time `now`, text `"eggs"`, drink `"water"`, hunger 3
then 7, on an empty store. -/
def c2States1 : StateMap := (handle_time_selection tNow [] 7 "now").2

/-- After entering the text. -/
def c2States2 : StateMap := (handle_text_input c2States1 7 "eggs").2

/-- After entering the drink. -/
def c2States3 : StateMap := (handle_drink_input c2States2 7 "water").2

/-- After choosing hunger-before level 3. -/
def c2Step4 : String × StateMap × List Rec :=
  handle_hunger_selection tSave c2States3 [] 7 "before" "3"

/-- After choosing hunger-after level 7, which saves. -/
def c2Final : String × StateMap × List Rec :=
  handle_hunger_selection tSave c2Step4.2.1 c2Step4.2.2 7 "after" "7"

/-- C2: completing the full new-record flow with time=now, text="eggs",
drink="water", hunger 3 and 7 appends exactly one record with all five
fields populated. REFUTED on the code: exactly one record is appended
and four of the five fields hold the entered values, but the `drink`
field of the saved record is `None`, not `"water"` — the draft still
held `"water"` entering the hunger step (second conjunct), and the
hunger-before transition constructs the successor state without the
`drink` argument, losing it. -/
theorem c2_new_flow_drops_drink :
    c2Final.2.2 =
      [{ id := fmtTimestamp tSave, datetime_utc := some (isoformatUTC tNow ++ "Z"),
         record := some "eggs", hunger_before := some 3, hunger_after := some 7,
         drink := none, picture := none }] ∧
    (getState c2States3 7).map (fun st => st.drink) = some (some "water") ∧
    (getState c2Step4.2.1 7).map (fun st => st.drink) = some none ∧
    c2Final.2.1 = [] := by
  decide

/-- A completed new-record draft (no editing id). -/
def c3St : RecordCreationState :=
  { user_id := 7, step := "complete", datetime_utc := some "2024-03-10T12:00:00+00:00Z",
    record_text := some "eggs" }

/-- C3 counterexample: two completed saves during the same clock second
produce the same `strftime("%Y%m%d_%H%M%S")` id, so the claimed
uniqueness of each newly appended id against the existing store fails on
this two-save sequence. -/
theorem c3_same_second_saves_collide :
    ¬ (((runSaves [(tSave, c3St), (tSave, c3St)]).map (fun r => r.id)).Nodup) := by
  decide

/-- C3 (amended): ids are unique provided the save instants are pairwise
distinct at second resolution (with the civil fields in `strftime` range)
— the timestamp-derived id is injective on such instants, so every
sequence of new-record saves yields pairwise distinct ids. -/
theorem c3_ids_nodup_of_distinct_instants
    (saves : List (DateTime × RecordCreationState))
    (hed : ∀ p ∈ saves, p.2.editing_record_id = none)
    (hv : ∀ p ∈ saves, ValidDT p.1)
    (hnd : (saves.map Prod.fst).Nodup) :
    ((runSaves saves).map (fun r => r.id)).Nodup := by
  rw [runSaves_ids saves hed]
  rw [show (fun p : DateTime × RecordCreationState => fmtTimestamp p.1) =
    (fun d => fmtTimestamp d) ∘ Prod.fst from rfl, ← List.map_map]
  refine List.Nodup.map_on ?_ hnd
  intro x hx y hy hxy
  obtain ⟨p, hp, hpx⟩ := List.mem_map.mp hx
  obtain ⟨q, hq, hqy⟩ := List.mem_map.mp hy
  exact fmtTimestamp_inj (hpx ▸ hv p hp) (hqy ▸ hv q hq) hxy

/-- Witness for the amended C3 at two saves one second apart. -/
theorem c3_witness :
    ((runSaves [(tNow, c3St), (tSave, c3St)]).map (fun r => r.id)).Nodup :=
  c3_ids_nodup_of_distinct_instants [(tNow, c3St), (tSave, c3St)]
    (by decide) (by decide) (by decide)

/-- A draft waiting for custom time input. -/
def c4St : RecordCreationState := { user_id := 7, step := "custom_time" }

/-- The message router applied to the custom time text, with no timezone
preference set. -/
def c4Res : Option String × StateMap × List Rec :=
  route_message none [(7, c4St)] [] 7 "2024-01-15 14:30"

/-- C4 counterexample: the draft's stored `datetime_utc` after entering
`"2024-01-15 14:30"` with no timezone preference is not the claimed
`"2024-01-15T14:30:00Z"` — the code computes `isoformat()` of an aware
UTC datetime (which carries a `+00:00` suffix) and then appends `"Z"`. -/
theorem c4_custom_time_not_plain_z :
    ¬ ((getState c4Res.2.1 7).bind (fun st => st.datetime_utc) =
      some "2024-01-15T14:30:00Z") := by
  decide

/-- C4 (amended): the stored string is exactly
`"2024-01-15T14:30:00+00:00Z"`. -/
theorem c4_custom_time_stored_offset_z :
    (getState c4Res.2.1 7).bind (fun st => st.datetime_utc) =
      some "2024-01-15T14:30:00+00:00Z" := by
  decide

/-- A live draft in step `hunger_before`. -/
def c5StB : RecordCreationState :=
  { user_id := 7, step := "hunger_before",
    datetime_utc := some "2024-03-10T12:00:00+00:00Z", record_text := some "eggs" }

/-- A live draft in step `hunger_after`. -/
def c5StA : RecordCreationState :=
  { user_id := 7, step := "hunger_after",
    datetime_utc := some "2024-03-10T12:00:00+00:00Z", record_text := some "eggs",
    hunger_before := some 3 }

/-- C5: a "back" input in state `hunger_before` should transition the
draft to state `text` (and from `hunger_after` to `hunger_before`), so
that the inputs accepted afterwards are those of the target state.
REFUTED on the code: `handle_hunger_back` only re-renders the prompt of
the previous step and performs no state assignment, so the draft's
`step` stays `hunger_before` and a subsequent free-text message is
silently dropped by the message router (it dispatches only on steps
`custom_time`, `text` and `drink`), leaving the draft stuck; likewise
the `hunger_after` draft keeps step `hunger_after`. -/
theorem c5_hunger_back_leaves_step_unchanged :
    handle_hunger_back [(7, c5StB)] 7 = "📝 What did you eat?" ∧
    route_message none [(7, c5StB)] [] 7 "toast" = (none, [(7, c5StB)], []) ∧
    handle_hunger_back [(7, c5StA)] 7 = show_hunger_scale "before" ∧
    (getState [(7, c5StA)] 7).map (fun st => st.step) = some "hunger_after" := by
  decide

/-- C6: for every user with a live draft in state `text`, a message whose
(stripped) text starts with `/` clears the draft — the conversation-state
map loses the user's entry — and the record list is untouched, with the
cancellation reply. -/
theorem c6_slash_clears_draft (userTz : Option (DateTime → DateTime))
    (states : StateMap) (records : List Rec) (u : Nat) (st : RecordCreationState)
    (text : String)
    (h1 : getState states u = some st) (h2 : st.step = "text")
    (h3 : (pyStrip text.data).head? = some '/') :
    route_message userTz states records u text =
      (some "❌ Record creation cancelled. Command detected.", delState states u, records) ∧
    getState (delState states u) u = none := by
  have hne : pyStrip text.data ≠ [] := by
    intro e
    rw [e] at h3
    exact absurd h3 (by decide)
  constructor
  · rw [route_message, h1]
    simp only []
    rw [if_neg (by rw [h2]; decide), if_pos h2]
    rw [handle_text_input, if_neg hne, if_pos h3]
  · exact getState_delState states u

/-- A live draft in step `text` for the C6 witness. -/
def c6St : RecordCreationState :=
  { user_id := 7, step := "text", datetime_utc := some "2024-03-10T12:00:00+00:00Z" }

/-- Witness for C6 at a concrete draft and the message `"/start"`. -/
theorem c6_witness :
    getState [(7, c6St)] 7 = some c6St ∧
    c6St.step = "text" ∧
    (pyStrip "/start".data).head? = some '/' ∧
    (route_message none [(7, c6St)] [recA] 7 "/start" =
      (some "❌ Record creation cancelled. Command detected.",
        delState [(7, c6St)] 7, [recA]) ∧
      getState (delState [(7, c6St)] 7) 7 = none) :=
  ⟨by decide, by decide, by decide,
    c6_slash_clears_draft none [(7, c6St)] [recA] 7 c6St "/start"
      (by decide) (by decide) (by decide)⟩

theorem filter_ne_id_length (records : List Rec) (X : String)
    (hnd : (records.map (fun r => r.id)).Nodup)
    (hm : X ∈ records.map (fun r => r.id)) :
    (records.filter (fun r => r.id != X)).length + 1 = records.length := by
  induction records with
  | nil => simp at hm
  | cons r rs ih =>
    rw [List.map_cons, List.nodup_cons] at hnd
    rw [List.filter_cons]
    rcases List.mem_cons.mp hm with h | h
    · rw [if_neg (by simp [h])]
      rw [List.filter_eq_self.mpr (by
        intro q hq
        rw [bne_iff_ne]
        intro e
        apply hnd.1
        have hrq : r.id = q.id := by
          rw [e]
          simpa using h.symm
        rw [hrq]
        exact List.mem_map_of_mem (fun r => r.id) hq)]
      simp
    · have hne : r.id ≠ X := fun e => hnd.1 (e ▸ h)
      rw [if_pos (by simp [hne])]
      simp only [List.length_cons]
      have := ih hnd.2 h
      omega

/-- C7: deleting the record with id `X` present in a store with unique
ids yields a store one shorter in which no record has id `X`; deleting an
absent id leaves the store unchanged, with no error (the operation is a
total filter). -/
theorem c7_remove_record_spec (records : List Rec) (X : String) :
    ((records.map (fun r => r.id)).Nodup → X ∈ records.map (fun r => r.id) →
      (remove_record records X).length + 1 = records.length ∧
      ∀ r ∈ remove_record records X, r.id ≠ X) ∧
    (X ∉ records.map (fun r => r.id) → remove_record records X = records) := by
  constructor
  · intro hnd hm
    constructor
    · exact filter_ne_id_length records X hnd hm
    · intro r hr
      have := List.of_mem_filter hr
      simpa [bne_iff_ne] using this
  · intro hm
    rw [remove_record]
    apply List.filter_eq_self.mpr
    intro r hr
    rw [bne_iff_ne]
    intro e
    exact hm (e ▸ List.mem_map_of_mem (fun r => r.id) hr)

/-- A second stored record with id `"B"`. -/
def recB : Rec :=
  { id := "B", datetime_utc := some "2024-01-02T09:00:00+00:00Z", record := some "soup",
    hunger_before := none, hunger_after := some 5, drink := none, picture := some "pic9" }

/-- Witness for C7 on a concrete two-record store: deleting `"A"` and
deleting the absent `"X"`. -/
theorem c7_witness :
    ((remove_record [recA, recB] "A").length + 1 = 2 ∧
      ∀ r ∈ remove_record [recA, recB] "A", r.id ≠ "A") ∧
    remove_record [recA, recB] "X" = [recA, recB] :=
  ⟨(c7_remove_record_spec [recA, recB] "A").1 (by decide) (by decide),
   (c7_remove_record_spec [recA, recB] "X").2 (by decide)⟩

theorem show_records_display_length (records : List Rec) (offset : Nat) :
    (show_records_display records offset).length =
      min (offset + 5) records.length - offset := by
  rw [show_records_display]
  by_cases h : records.isEmpty
  · rw [if_pos h]
    have hlen : records.length = 0 := by
      cases records with
      | nil => rfl
      | cons r rs => exact absurd h (by simp)
    rw [hlen]
    simp
  · rw [if_neg h]
    rw [List.length_take, List.length_drop]
    omega

theorem show_records_display_get (records : List Rec) (offset i : Nat) :
    (show_records_display records offset)[i]? =
      if i < min (offset + 5) records.length - offset then records[offset + i]?
      else none := by
  rw [show_records_display]
  by_cases h : records.isEmpty
  · rw [if_pos h]
    have hlen : records.length = 0 := by
      cases records with
      | nil => rfl
      | cons r rs => exact absurd h (by simp)
    rw [hlen]
    rw [if_neg (by omega)]
    simp
  · rw [if_neg h]
    exact getElem?_take_drop records offset _ i

/-- C8: the displayed page of `_show_records` is exactly the slice of
the stored (oldest-first) list from index `offset` up to
`min(offset+5, length)`, for every list and every offset: its length is
`min(offset+5, length) - offset` and its `i`-th entry is the record at
index `offset + i`; in particular a 12-record store shows exactly 2
records at offset 10 and an empty page (not an error — the function is
total) at offset 15. -/
theorem c8_pagination_spec (records : List Rec) (offset : Nat) :
    (show_records_display records offset).length =
      min (offset + 5) records.length - offset ∧
    (∀ i : Nat, (show_records_display records offset)[i]? =
      if i < min (offset + 5) records.length - offset then records[offset + i]?
      else none) ∧
    (records.length = 12 →
      (show_records_display records 10).length = 2 ∧
      (show_records_display records 15).length = 0) := by
  refine ⟨show_records_display_length records offset,
    fun i => show_records_display_get records offset i, ?_⟩
  intro h12
  rw [show_records_display_length, show_records_display_length, h12]
  omega

/-- A concrete 12-record store for the C8 witness. -/
def c8Recs : List Rec := List.replicate 12 recA

/-- Witness for C8 at the concrete 12-record store. -/
theorem c8_witness :
    c8Recs.length = 12 ∧
    ((show_records_display c8Recs 10).length = 2 ∧
      (show_records_display c8Recs 15).length = 0) :=
  ⟨by decide, (c8_pagination_spec c8Recs 10).2.2 (by decide)⟩

/-- C9: for a user's store file whose read yields the record list `rs`
(`list_all`), rewriting the file through the replace-all idiom (clear
with `write_text`, then `write_jsonl` the same list, as
`_save_complete_record` and `_remove_record` do) leaves the store
observably unchanged: a subsequent read returns the same sequence. -/
theorem c9_replace_all_roundtrip (file : List Char) (rs : List Rec)
    (h : read_jsonl file = some rs) :
    read_jsonl (replace_all file rs) = read_jsonl file := by
  rw [h, replace_all, write_text]
  rw [show ("" : String).data = [] from rfl]
  exact read_jsonl_write_jsonl rs

/-- A concrete store file holding two records. -/
def c9File : List Char := write_jsonl [] [recA, recB]

set_option maxRecDepth 100000 in
/-- Witness for C9 at the concrete two-record file. -/
theorem c9_witness :
    read_jsonl c9File = some [recA, recB] ∧
    read_jsonl (replace_all c9File [recA, recB]) = read_jsonl c9File :=
  ⟨by decide, c9_replace_all_roundtrip c9File [recA, recB] (by decide)⟩

/-- C10: for every user with no live draft, the drink-input,
hunger-selection and save-complete operations each return the
no-active-record error and leave both the conversation-state map and the
record list exactly as they were. -/
theorem c10_no_draft_ops_unchanged (states : StateMap) (records : List Rec) (u : Nat)
    (saveNow : DateTime) (drinkText hungerType level : String)
    (h : getState states u = none) :
    handle_drink_input states u drinkText =
      ("❌ Error: No active record creation.", states) ∧
    handle_hunger_selection saveNow states records u hungerType level =
      ("❌ Error: No active record creation.", states, records) ∧
    save_complete_record saveNow states records u =
      ("❌ Error: No active record creation.", states, records) := by
  refine ⟨?_, ?_, ?_⟩
  · rw [handle_drink_input, h]
  · rw [handle_hunger_selection, h]
  · rw [save_complete_record, h]

/-- Witness for C10 on an empty state map with a one-record store. -/
theorem c10_witness :
    getState [] 7 = none ∧
    (handle_drink_input [] 7 "water" =
      ("❌ Error: No active record creation.", []) ∧
    handle_hunger_selection tSave [] [recA] 7 "before" "3" =
      ("❌ Error: No active record creation.", [], [recA]) ∧
    save_complete_record tSave [] [recA] 7 =
      ("❌ Error: No active record creation.", [], [recA])) :=
  ⟨rfl, c10_no_draft_ops_unchanged [] [recA] 7 tSave "water" "before" "3" rfl⟩
